import Mathlib

/-!
Shallow embedding of the enscons fork (src/enscons/util.py and
src/enscons/helpers.py).

Conventions of the embedding:
* Python strings are Lean `String`; character-level work is done on
  `String.data : List Char` so that every function is structurally
  recursive and evaluates inside the kernel.
* The `packaging.requirements.Requirement` objects used by util.py are
  modelled by the structure `Requirement` below; its constructor parsing
  and its `str()` rendering follow the behaviour of the packaging
  library on the fragment of PEP 508 exercised here.  A parsed marker is
  kept as its source text; `marker := some m` only arises for a
  non-empty marker text, mirroring that a parsed Marker object is always
  truthy in Python.
* Python generators that can raise are modelled by full consumption
  into `Except String (List _)`: an exception while producing the
  sequence means no output sequence is delivered to the caller.
-/

/-- Lexicographic comparison of character lists by code point, the order
Python uses when sorting a list of strings. -/
def charListLe : List Char → List Char → Bool
  | [], _ => true
  | _ :: _, [] => false
  | a :: as, b :: bs => if a < b then true else if b < a then false else charListLe as bs

/-- Comparison of strings via their character lists (Python string order). -/
def strLe (a b : String) : Bool := charListLe a.data b.data

/-- The string order as a relation, for use with the sorting machinery. -/
def StrLeRel (a b : String) : Prop := strLe a b = true

instance : DecidableRel StrLeRel := fun a b => (inferInstance : Decidable (strLe a b = true))

/-- Model of the Python builtin `sorted` on a list of strings. -/
def pySorted (l : List String) : List String := List.insertionSort StrLeRel l

/-- Model of Python `sep.join(l)`. -/
def joinSep (sep : String) : List String → String
  | [] => ""
  | [x] => x
  | x :: xs => x ++ sep ++ joinSep sep xs

/-- Drop leading and trailing whitespace from a character list. -/
def trimChars (cs : List Char) : List Char :=
  ((cs.dropWhile Char.isWhitespace).reverse.dropWhile Char.isWhitespace).reverse

/-- Model of Python `str.strip()`. -/
def pyStrip (s : String) : String := String.mk (trimChars s.data)

/-- Split a character list at the first occurrence of `sep`, like Python
`s.split(sep, 1)`; `none` when `sep` does not occur. -/
def splitFirstChar (sep : Char) : List Char → Option (List Char × List Char)
  | [] => none
  | c :: cs =>
    if c = sep then some ([], cs)
    else
      match splitFirstChar sep cs with
      | some (a, b) => some (c :: a, b)
      | none => none

/-- Split a character list at every occurrence of `sep`, like Python
`s.split(sep)`. -/
def splitAllChar (sep : Char) : List Char → List (List Char)
  | [] => [[]]
  | c :: cs =>
    let r := splitAllChar sep cs
    if c = sep then [] :: r
    else
      match r with
      | [] => [[c]]
      | a :: rest => (c :: a) :: rest

/-- Characters allowed in a requirement name (letters, digits, dot, dash,
underscore). -/
def isNameChar (c : Char) : Bool :=
  c.isAlphanum || c = '.' || c = '-' || c = '_'

/-- Characters allowed in a version token. -/
def isVersionChar (c : Char) : Bool :=
  c.isAlphanum || c = '.' || c = '*' || c = '+' || c = '!' || c = '-' || c = '_'

/-- Model of a parsed `packaging.requirements.Requirement`.  `specifier`
keeps the parsed (operator, version) pairs; `marker` keeps the marker
text (assigned as a plain string by `generate_requirements`, exactly as
the Python code does). -/
structure Requirement where
  name : String
  extras : List String
  specifier : List (String × String)
  url : Option String
  marker : Option String
deriving DecidableEq

/-- Recognise a version-comparison operator at the head of a character
list, longest match first. -/
def parseOp (s : List Char) : Option (String × List Char) :=
  if s.take 3 = ['=', '=', '='] then some ("===", s.drop 3)
  else if s.take 2 = ['=', '='] then some ("==", s.drop 2)
  else if s.take 2 = ['~', '='] then some ("~=", s.drop 2)
  else if s.take 2 = ['!', '='] then some ("!=", s.drop 2)
  else if s.take 2 = ['<', '='] then some ("<=", s.drop 2)
  else if s.take 2 = ['>', '='] then some (">=", s.drop 2)
  else if s.take 1 = ['<'] then some ("<", s.drop 1)
  else if s.take 1 = ['>'] then some (">", s.drop 1)
  else none

/-- Parse one `op version` token of a specifier list. -/
def parseOneSpec (piece : List Char) : Except String (String × String) :=
  match parseOp (trimChars piece) with
  | none => Except.error ("invalid specifier: " ++ String.mk piece)
  | some (op, rest) =>
    let ver := trimChars rest
    if ver ≠ [] ∧ ver.all isVersionChar then Except.ok (op, String.mk ver)
    else Except.error ("invalid version: " ++ String.mk piece)

/-- Parse a comma-separated version-specifier list, optionally wrapped in
one pair of parentheses as PEP 508 allows. -/
def parseSpecifierList (cs : List Char) : Except String (List (String × String)) :=
  let t := trimChars cs
  let t :=
    match t with
    | '(' :: more =>
      match more.reverse with
      | ')' :: inner => inner.reverse
      | _ => t
    | _ => t
  if trimChars t = [] then Except.ok []
  else (splitAllChar ',' t).mapM parseOneSpec

/-- Validate the marker part (after the first semicolon) of a requirement
string. -/
def parseMarkerPart (s : String) : Option (List Char) → Except String (Option String)
  | none => Except.ok none
  | some mcs =>
    let m := trimChars mcs
    if m = [] then Except.error ("empty marker in requirement: " ++ s)
    else Except.ok (some (String.mk m))

/-- Validate the direct-URL part (after the at sign) of a requirement
string. -/
def parseUrlPart (s : String) : Option (List Char) → Except String (Option String)
  | none => Except.ok none
  | some ucs =>
    let u := trimChars ucs
    if u = [] then Except.error ("empty url in requirement: " ++ s)
    else Except.ok (some (String.mk u))

/-- Parse an optional bracketed extras list at the head of the remaining
characters. -/
def parseExtrasPart (s : String) : List Char → Except String (List String × List Char)
  | '[' :: more =>
    (match splitFirstChar ']' more with
     | some (inside, after) =>
       let es := (splitAllChar ',' inside).map trimChars
       if es.all (fun e => e ≠ [] ∧ e.all isNameChar) then
         Except.ok (es.map String.mk, after.dropWhile Char.isWhitespace)
       else Except.error ("bad extras in requirement: " ++ s)
     | none => Except.error ("unclosed extras bracket in requirement: " ++ s))
  | rest => Except.ok ([], rest)

/-- Split off an optional part introduced by `sep`, like Python
`s.split(sep, 1)` guarded by a containment test. -/
def splitOptFirst (sep : Char) (cs : List Char) : List Char × Option (List Char) :=
  match splitFirstChar sep cs with
  | some (a, b) => (a, some b)
  | none => (cs, none)

/-- Model of `packaging.requirements.Requirement(text)`: parse a PEP 508
requirement string (name, optional extras, version specifiers or direct
URL, optional marker); an ill-formed string is a fatal parse error. -/
def Requirement.parse (s : String) : Except String Requirement := do
  let (mainCs, markerPart) := splitOptFirst ';' s.data
  let marker ← parseMarkerPart s markerPart
  let (nameSpecCs, urlPart) := splitOptFirst '@' mainCs
  let url ← parseUrlPart s urlPart
  let t := trimChars nameSpecCs
  let nameCs := t.takeWhile isNameChar
  let afterName := (t.drop nameCs.length).dropWhile Char.isWhitespace
  if nameCs = [] then Except.error ("no name in requirement: " ++ s)
  else do
    let (extras, rest) ← parseExtrasPart s afterName
    match url with
    | some u =>
      if trimChars rest = [] then
        Except.ok { name := String.mk nameCs, extras := extras, specifier := [],
                    url := some u, marker := marker }
      else Except.error ("unexpected text after url in requirement: " ++ s)
    | none => do
      let specs ← parseSpecifierList rest
      Except.ok { name := String.mk nameCs, extras := extras, specifier := specs,
                  url := none, marker := marker }

/-- Model of `str(requirement)` in the packaging library: name, then the
sorted extras in brackets, then the sorted comma-joined specifiers, then
the direct URL, then the marker after a semicolon. -/
def Requirement.render (r : Requirement) : String :=
  r.name
    ++ (if r.extras = [] then "" else "[" ++ joinSep "," (pySorted r.extras) ++ "]")
    ++ (if r.specifier = [] then ""
        else joinSep "," (pySorted (r.specifier.map (fun p => p.1 ++ p.2))))
    ++ (match r.url with
        | some u => "@ " ++ u ++ (match r.marker with | some _ => " " | none => "")
        | none => "")
    ++ (match r.marker with
        | some m => "; " ++ m
        | none => "")

/-- Model of the duck-typed argument of `requires_to_requires_dist`: an
object with a `specs` list of (operator, version) pairs and an optional
`url` attribute (absent or empty means no direct URL, matching the
truthiness test `getattr(requirement, "url", None)`). -/
structure SpecsReq where
  url : Option String
  specs : List (String × String)
deriving DecidableEq

/-- Version-specifier rendering used by `requires_to_requires_dist` when
no direct URL is present: each pair rendered as op+version, sorted,
comma-joined, wrapped in parentheses after a space; empty input renders
as the empty string. -/
def specsPart (specs : List (String × String)) : String :=
  let requires_dist := specs.map (fun p => p.1 ++ p.2)
  if requires_dist = [] then ""
  else " (" ++ joinSep "," (pySorted requires_dist) ++ ")"

/-- Embedding of `requires_to_requires_dist` (src/enscons/util.py lines
8-18). -/
def requires_to_requires_dist (requirement : SpecsReq) : String :=
  match requirement.url with
  | some u => if u = "" then specsPart requirement.specs else " @ " ++ u
  | none => specsPart requirement.specs

/-- Marker combination performed by `generate_requirements` on each
parsed requirement: when a combined condition clause is present, a
pre-existing marker is wrapped in parentheses and the clause is ANDed
after it; without a pre-existing marker the clause becomes the marker. -/
def combineMarker (condition : String) (r : Requirement) : Requirement :=
  if condition = "" then r
  else
    match r.marker with
    | some m => { r with marker := some ("(" ++ m ++ ") and " ++ condition) }
    | none => { r with marker := some condition }

/-- Split an extras key on the first colon, like
`extra.split(":", 1)` guarded by `":" in extra`; without a colon the
condition is the empty string. -/
def splitExtra (key : String) : String × String :=
  match splitFirstChar ':' key.data with
  | some (a, b) => (String.mk a, String.mk b)
  | none => (key, "")

/-- The per-requirement loop of `generate_requirements`: parse each
dependency string, combine the condition clause into its marker, and
emit a Requires-Dist record with the rendered requirement.  A parse
error aborts the whole iteration. -/
def processDeps (condition : String) : List String → Except String (List (String × String))
  | [] => Except.ok []
  | d :: ds =>
    match Requirement.parse d with
    | Except.error e => Except.error e
    | Except.ok r =>
      match processDeps condition ds with
      | Except.error e => Except.error e
      | Except.ok rest =>
        Except.ok (("Requires-Dist", (combineMarker condition r).render) :: rest)

/-- The per-entry body of `generate_requirements`: split the key into
extra name and condition; a named extra emits a Provides-Extra record
and combines the condition with the extra clause. -/
def entryFields (key : String) (depends : List String) :
    Except String (List (String × String)) :=
  let extra := (splitExtra key).1
  let condition := (splitExtra key).2
  if extra = "" then processDeps condition depends
  else
    let condition :=
      (if condition = "" then "" else "(" ++ condition ++ ") and ")
        ++ "extra == \x27" ++ extra ++ "\x27"
    match processDeps condition depends with
    | Except.error e => Except.error e
    | Except.ok reqs => Except.ok (("Provides-Extra", extra) :: reqs)

/-- Embedding of `generate_requirements` (src/enscons/util.py lines
21-48), with the generator consumed into a list; the mapping is a list
of key/requirements pairs in iteration order. -/
def generate_requirements : List (String × List String) → Except String (List (String × String))
  | [] => Except.ok []
  | (key, depends) :: rest =>
    match entryFields key depends with
    | Except.error e => Except.error e
    | Except.ok fs =>
      match generate_requirements rest with
      | Except.error e => Except.error e
      | Except.ok more => Except.ok (fs ++ more)

/-- Model of a directory tree on disk: a directory has a base name, a
list of plain-file names directly inside it, and a list of
subdirectories. -/
inductive FSDir : Type where
  | mk (name : String) (files : List String) (subdirs : List FSDir)

/-- Base name of a directory. -/
def FSDir.name : FSDir → String
  | .mk n _ _ => n

/-- Names of the plain files directly inside a directory. -/
def FSDir.files : FSDir → List String
  | .mk _ f _ => f

/-- Immediate subdirectories of a directory. -/
def FSDir.subdirs : FSDir → List FSDir
  | .mk _ _ s => s

mutual
/-- Model of `os.walk(root)` with the default top-down order: the pair
(directory path, directory node) for the root first, then the full
walks of its subdirectories in order.  Nothing is ever pruned, exactly
as in the source, which never edits the dirnames list in place. -/
def osWalk (path : String) : FSDir → List (String × FSDir)
  | .mk n fs subs => (path, .mk n fs subs) :: osWalkList path subs
/-- Walks of a list of sibling subdirectories of the directory at
`path`, in order. -/
def osWalkList (path : String) : List FSDir → List (String × FSDir)
  | [] => []
  | d :: ds => osWalk (path ++ "/" ++ d.name) d ++ osWalkList path ds
end

/-- Model of `Glob(os.path.join(path, pattern))`: the files directly in
the directory whose names match the pattern, as full paths.  The
pattern is abstracted to a predicate on file names. -/
def globDir (pat : String → Bool) (path : String) (d : FSDir) : List String :=
  (d.files.filter pat).map (fun f => path ++ "/" ++ f)

/-- The body of the inner loop of `recursiveGlob` for one candidate
subdirectory `c` of the walked directory at `oswroot`: skip it when its
base name is ignored; else skip it when `expectFile` is non-empty and
none of those names is a file directly inside it; else contribute its
matching files. -/
def childMatches (pat : String → Bool) (ignoreNames expectFile : List String)
    (oswroot : String) (c : FSDir) : List String :=
  if c.name ∈ ignoreNames then []
  else
    if (!expectFile.any (fun fn => decide (fn ∈ c.files))) && (!expectFile.isEmpty) then []
    else globDir pat (oswroot ++ "/" ++ c.name) c

/-- Embedding of the core of `recursiveGlob` (src/enscons/helpers.py
lines 77-92) after argument normalisation: the root glob first, then
for every walked directory, in walk order, the contributions of each of
its subdirectories. -/
def recursiveGlob (pat : String → Bool) (root : String) (d : FSDir)
    (ignoreNames expectFile : List String) : List String :=
  globDir pat root d ++
    ((osWalk root d).map (fun e =>
      (e.2.subdirs.map (childMatches pat ignoreNames expectFile e.1)).flatten)).flatten

/-- A Python argument that may be a single string or a list of strings
(the `expectFile` parameter accepts both). -/
inductive PyStrOrList : Type where
  | str (s : String)
  | list (l : List String)
deriving DecidableEq

/-- Embedding of the public interface of `recursiveGlob`: `none` selects
the documented defaults and a single string for `expectFile` is wrapped
into a one-element list. -/
def recursiveGlobApi (pat : String → Bool) (root : String) (d : FSDir)
    (ignoreNames : Option (List String)) (expectFile : Option PyStrOrList) : List String :=
  let ign :=
    match ignoreNames with
    | none => ["__pycache__"]
    | some l => l
  let exp :=
    match expectFile with
    | none => ["__init__.py"]
    | some (.str s) => [s]
    | some (.list l) => l
  recursiveGlob pat root d ign exp

/-- The persisted version artifact produced by `prolog`: either the
pre-existing VERSION.txt carried along unchanged, or a freshly
generated text file with the resolved version as contents. -/
inductive VersionArtifact : Type where
  | existingFile (path : String)
  | generated (path : String) (contents : String)
deriving DecidableEq

/-- Embedding of the version-resolution slice of `prolog`
(src/enscons/helpers.py lines 113-133): `versionTxt` is the contents of
VERSION.txt when that file exists, `osEnvironVersionKey` the optional
environment-variable name, `environ` the environment lookup. -/
def prologVersion (versionTxt : Option String) (osEnvironVersionKey : Option String)
    (environ : String → Option String) : String × VersionArtifact :=
  match versionTxt with
  | some contents => (pyStrip contents, VersionArtifact.existingFile "VERSION.txt")
  | none =>
    let default_version := "99.99.99"
    let version :=
      match osEnvironVersionKey with
      | some key => (environ key).getD default_version
      | none => default_version
    (version, VersionArtifact.generated "VERSION.txt" version)

/-- The default file pattern `*.py` as a predicate on file names. -/
def pyPat (s : String) : Bool := s.data.reverse.take 3 = ['y', 'p', '.']

/-- A concrete directory tree: package `pkg` with an ignored-name
subdirectory `__pycache__` that itself contains a subdirectory `sub`
holding a package marker file. -/
def pyTree : FSDir :=
  .mk "pkg" ["__init__.py", "a.py"]
    [.mk "__pycache__" ["junk.pyc"]
      [.mk "sub" ["__init__.py", "b.py"] []]]

example : osWalk "pkg" pyTree =
    [("pkg", pyTree),
     ("pkg/__pycache__", .mk "__pycache__" ["junk.pyc"] [.mk "sub" ["__init__.py", "b.py"] []]),
     ("pkg/__pycache__/sub", .mk "sub" ["__init__.py", "b.py"] [])] := rfl

example : recursiveGlob pyPat "pkg" pyTree ["__pycache__"] ["__init__.py"] =
    ["pkg/__init__.py", "pkg/a.py", "pkg/__pycache__/sub/__init__.py",
     "pkg/__pycache__/sub/b.py"] := rfl

example : Requirement.parse "six>=1.10" =
    Except.ok { name := "six", extras := [], specifier := [(">=", "1.10")],
                url := none, marker := none } := rfl

example : generate_requirements [("", ["six>=1.10"]), ("dev", ["black"])] =
    Except.ok [("Requires-Dist", "six>=1.10"), ("Provides-Extra", "dev"),
               ("Requires-Dist", "black; extra == \x27dev\x27")] := rfl

example : generate_requirements [("test:sys_platform==\x27linux\x27", ["pytest>=6"])] =
    Except.ok [("Provides-Extra", "test"),
               ("Requires-Dist", "pytest>=6; (sys_platform==\x27linux\x27) and extra == \x27test\x27")] := rfl

example : generate_requirements [(":sys_platform==\x27win32\x27", ["colorama"])] =
    Except.ok [("Requires-Dist", "colorama; sys_platform==\x27win32\x27")] := rfl

example : requires_to_requires_dist ⟨none, [(">=", "1.0"), ("<", "2.0")]⟩ = " (<2.0,>=1.0)" := rfl

example : requires_to_requires_dist ⟨some "https://example.com/pkg.whl", [(">=", "1.0")]⟩ =
    " @ https://example.com/pkg.whl" := rfl

example : ∃ e, Requirement.parse "???" = Except.error e := ⟨_, rfl⟩

/-! ### Order properties of the string comparison used by the sort -/

theorem charListLe_total : ∀ as bs : List Char, charListLe as bs = true ∨ charListLe bs as = true
  | [], _ => Or.inl rfl
  | _ :: _, [] => Or.inr rfl
  | a :: as, b :: bs => by
    rcases lt_trichotomy a b with h | h | h
    · left; simp [charListLe, h]
    · subst h
      rcases charListLe_total as bs with h2 | h2
      · left; simp [charListLe, lt_irrefl a, h2]
      · right; simp [charListLe, lt_irrefl a, h2]
    · right; simp [charListLe, h]

theorem charListLe_trans : ∀ as bs cs : List Char,
    charListLe as bs = true → charListLe bs cs = true → charListLe as cs = true
  | [], _, _, _, _ => rfl
  | _ :: _, [], _, h1, _ => by simp [charListLe] at h1
  | _ :: _, _ :: _, [], _, h2 => by simp [charListLe] at h2
  | a :: as, b :: bs, c :: cs, h1, h2 => by
    rcases lt_trichotomy a b with hab | hab | hab
    · rcases lt_trichotomy b c with hbc | hbc | hbc
      · simp [charListLe, lt_trans hab hbc]
      · subst hbc; simp [charListLe, hab]
      · exfalso; simp [charListLe, lt_asymm hbc, hbc] at h2
    · subst hab
      rcases lt_trichotomy a c with hac | hac | hac
      · simp [charListLe, hac]
      · subst hac
        have h1x : charListLe as bs = true := by simpa [charListLe, lt_irrefl a] using h1
        have h2x : charListLe bs cs = true := by simpa [charListLe, lt_irrefl a] using h2
        simp [charListLe, lt_irrefl a, charListLe_trans as bs cs h1x h2x]
      · exfalso; simp [charListLe, lt_asymm hac, hac] at h2
    · exfalso; simp [charListLe, lt_asymm hab, hab] at h1

theorem charListLe_antisymm : ∀ as bs : List Char,
    charListLe as bs = true → charListLe bs as = true → as = bs
  | [], [], _, _ => rfl
  | [], _ :: _, _, h2 => by simp [charListLe] at h2
  | _ :: _, [], h1, _ => by simp [charListLe] at h1
  | a :: as, b :: bs, h1, h2 => by
    rcases lt_trichotomy a b with h | h | h
    · exfalso; simp [charListLe, lt_asymm h, h] at h2
    · subst h
      have h1x : charListLe as bs = true := by simpa [charListLe, lt_irrefl a] using h1
      have h2x : charListLe bs as = true := by simpa [charListLe, lt_irrefl a] using h2
      rw [charListLe_antisymm as bs h1x h2x]
    · exfalso; simp [charListLe, lt_asymm h, h] at h1

theorem strLeRel_total (a b : String) : StrLeRel a b ∨ StrLeRel b a :=
  charListLe_total a.data b.data

theorem strLeRel_trans (a b c : String) : StrLeRel a b → StrLeRel b c → StrLeRel a c :=
  charListLe_trans a.data b.data c.data

theorem strLeRel_antisymm (a b : String) : StrLeRel a b → StrLeRel b a → a = b := by
  intro h1 h2
  have h := charListLe_antisymm a.data b.data h1 h2
  cases a
  cases b
  exact congrArg String.mk h

theorem pySorted_perm_eq {l₁ l₂ : List String} (h : l₁.Perm l₂) : pySorted l₁ = pySorted l₂ := by
  have ht : IsTotal String StrLeRel := ⟨strLeRel_total⟩
  have htr : IsTrans String StrLeRel := ⟨strLeRel_trans⟩
  have ha : IsAntisymm String StrLeRel := ⟨strLeRel_antisymm⟩
  exact List.eq_of_perm_of_sorted
    ((List.perm_insertionSort _ _).trans (h.trans (List.perm_insertionSort _ _).symm))
    (List.sorted_insertionSort _ _) (List.sorted_insertionSort _ _)

/-! ### Splitting lemmas for the extras key -/

theorem data_append (a b : String) : (a ++ b).data = a.data ++ b.data := rfl

theorem splitFirstChar_sep (sep : Char) (ds : List Char) :
    splitFirstChar sep (sep :: ds) = some ([], ds) := by
  simp [splitFirstChar]

theorem splitFirstChar_no_sep (sep : Char) :
    ∀ cs ds : List Char, (∀ c ∈ cs, c ≠ sep) →
      splitFirstChar sep (cs ++ sep :: ds) = some (cs, ds)
  | [], ds, _ => by simp [splitFirstChar]
  | c :: cs, ds, h => by
    have hc : c ≠ sep := h c (List.mem_cons_self c cs)
    simp [splitFirstChar, hc,
      splitFirstChar_no_sep sep cs ds (fun x hx => h x (List.mem_cons_of_mem c hx))]

theorem splitExtra_empty_extra (cond : String) : splitExtra (":" ++ cond) = ("", cond) := by
  have h : (":" ++ cond).data = ':' :: cond.data := rfl
  simp [splitExtra, h, splitFirstChar_sep]

theorem splitExtra_named (n cond : String) (hn : ∀ c ∈ n.data, c ≠ ':') :
    splitExtra (n ++ ":" ++ cond) = (n, cond) := by
  have h : (n ++ ":" ++ cond).data = n.data ++ ':' :: cond.data := by
    rw [data_append, data_append]
    simp
  simp [splitExtra, h, splitFirstChar_no_sep ':' n.data cond.data hn]

/-! ### Permutation invariance of the specifier rendering -/

theorem specsPart_perm {s₁ s₂ : List (String × String)} (h : s₁.Perm s₂) :
    specsPart s₁ = specsPart s₂ := by
  have hm : (s₁.map (fun p => p.1 ++ p.2)).Perm (s₂.map (fun p => p.1 ++ p.2)) := h.map _
  by_cases hn : s₁.map (fun p => p.1 ++ p.2) = []
  · have hn2 : s₂.map (fun p => p.1 ++ p.2) = [] := by
      rw [hn] at hm
      exact hm.symm.eq_nil
    simp [specsPart, hn, hn2]
  · have hn2 : s₂.map (fun p => p.1 ++ p.2) ≠ [] := by
      intro hh
      rw [hh] at hm
      exact hn hm.eq_nil
    simp [specsPart, hn, hn2, pySorted_perm_eq hm]

/-! ### Error propagation through the distillation -/

theorem processDeps_error_of_mem (cond : String) (deps : List String) (d err : String)
    (hd : d ∈ deps) (he : Requirement.parse d = Except.error err) :
    ∃ msg, processDeps cond deps = Except.error msg := by
  induction deps with
  | nil => cases hd
  | cons a as ih =>
    cases hpa : Requirement.parse a with
    | error e =>
      exact ⟨e, by simp [processDeps, hpa]⟩
    | ok r =>
      rcases List.mem_cons.mp hd with rfl | hmem
      · rw [hpa] at he
        cases he
      · obtain ⟨msg, hmsg⟩ := ih hmem
        exact ⟨msg, by simp [processDeps, hpa, hmsg]⟩

theorem entryFields_error_of_mem (key : String) (deps : List String) (d err : String)
    (hd : d ∈ deps) (he : Requirement.parse d = Except.error err) :
    ∃ msg, entryFields key deps = Except.error msg := by
  by_cases hx : (splitExtra key).1 = ""
  · obtain ⟨msg, hm⟩ := processDeps_error_of_mem (splitExtra key).2 deps d err hd he
    exact ⟨msg, by simp [entryFields, hx, hm]⟩
  · obtain ⟨msg, hm⟩ := processDeps_error_of_mem
      ((if (splitExtra key).2 = "" then "" else "(" ++ (splitExtra key).2 ++ ") and ")
        ++ "extra == \x27" ++ (splitExtra key).1 ++ "\x27") deps d err hd he
    exact ⟨msg, by simp [entryFields, hx, hm]⟩

theorem processDeps_fields (cond : String) :
    ∀ (deps : List String) (l : List (String × String)),
      processDeps cond deps = Except.ok l → ∀ fld ∈ l, fld.1 = "Requires-Dist" := by
  intro deps
  induction deps with
  | nil =>
    intro l h fld hf
    simp only [processDeps] at h
    cases h
    cases hf
  | cons a as ih =>
    intro l h fld hf
    simp only [processDeps] at h
    cases hpa : Requirement.parse a with
    | error e => rw [hpa] at h; cases h
    | ok r =>
      rw [hpa] at h
      cases hq : processDeps cond as with
      | error e => rw [hq] at h; cases h
      | ok rest =>
        rw [hq] at h
        cases h
        rcases List.mem_cons.mp hf with rfl | hm
        · rfl
        · exact ih rest hq fld hm

/-! ### Closure properties of the directory walk -/

mutual
theorem osWalk_closed (d : FSDir) (root p : String) (n : FSDir)
    (h : (p, n) ∈ osWalk root d) : ∀ x ∈ osWalk p n, x ∈ osWalk root d :=
  match d with
  | .mk nm fs subs => by
    rw [osWalk] at h ⊢
    rcases List.mem_cons.mp h with heq | hmem
    · rw [Prod.mk.injEq] at heq
      obtain ⟨rfl, rfl⟩ := heq
      intro x hx
      rw [osWalk] at hx
      exact hx
    · intro x hx
      exact List.mem_cons_of_mem _ (osWalkList_closed subs root p n hmem x hx)

theorem osWalkList_closed (ds : List FSDir) (root p : String) (n : FSDir)
    (h : (p, n) ∈ osWalkList root ds) : ∀ x ∈ osWalk p n, x ∈ osWalkList root ds :=
  match ds with
  | [] => by rw [osWalkList] at h; cases h
  | d :: rest => by
    rw [osWalkList] at h ⊢
    rcases List.mem_append.mp h with h1 | h2
    · intro x hx
      exact List.mem_append_left _ (osWalk_closed d (root ++ "/" ++ d.name) p n h1 x hx)
    · intro x hx
      exact List.mem_append_right _ (osWalkList_closed rest root p n h2 x hx)
end

theorem osWalkList_child (p : String) (c : FSDir) :
    ∀ ds : List FSDir, c ∈ ds → (p ++ "/" ++ c.name, c) ∈ osWalkList p ds := by
  intro ds
  induction ds with
  | nil => intro h; cases h
  | cons d rest ih =>
    intro h
    rw [osWalkList]
    rcases List.mem_cons.mp h with rfl | hm
    · apply List.mem_append_left
      obtain ⟨nm, fs, subs⟩ := c
      rw [osWalk]
      exact List.mem_cons_self _ _
    · exact List.mem_append_right _ (ih hm)

theorem osWalk_child_mem (root p : String) (d n c : FSDir)
    (h : (p, n) ∈ osWalk root d) (hc : c ∈ n.subdirs) :
    (p ++ "/" ++ c.name, c) ∈ osWalk root d := by
  apply osWalk_closed d root p n h
  obtain ⟨nm, fs, subs⟩ := n
  rw [osWalk]
  exact List.mem_cons_of_mem _ (osWalkList_child p c subs hc)

/-! ### Claim theorems -/

/-- Claim C2 counterexample: for the extras mapping with base requirement
six>=1.10 and extra dev with black, the distillation does not produce the
record value with a space and a parenthesized specifier for six; the first
record differs from the claimed one. -/
theorem generate_requirements_example_not_wheel_style :
    generate_requirements [("", ["six>=1.10"]), ("dev", ["black"])] ≠
      Except.ok [("Requires-Dist", "six (>=1.10)"), ("Provides-Extra", "dev"),
                 ("Requires-Dist", "black; extra == \x27dev\x27")] := by
  intro h
  rw [show generate_requirements [("", ["six>=1.10"]), ("dev", ["black"])] =
      Except.ok [("Requires-Dist", "six>=1.10"), ("Provides-Extra", "dev"),
                 ("Requires-Dist", "black; extra == \x27dev\x27")] from rfl] at h
  exact absurd (Except.ok.inj h) (by decide)

/-- Claim C2 (amended): the extras mapping with base requirement six>=1.10
and extra dev with black yields exactly the three records Requires-Dist
six>=1.10 (rendered in the canonical packaging form, without a space or
parentheses), Provides-Extra dev, and Requires-Dist black with the extra
marker, in that order and nothing else. -/
theorem generate_requirements_example_eval :
    generate_requirements [("", ["six>=1.10"]), ("dev", ["black"])] =
      Except.ok [("Requires-Dist", "six>=1.10"), ("Provides-Extra", "dev"),
                 ("Requires-Dist", "black; extra == \x27dev\x27")] := rfl

/-- Claim C5: for requirements without a direct URL, the specifier rendering
of requires_to_requires_dist is invariant under permutation of the
(operator, version) pair list, and on the two concrete pair lists of the
claim it yields the sorted parenthesized form. -/
theorem requires_to_requires_dist_perm_invariant :
    (∀ r₁ r₂ : SpecsReq, r₁.url = none → r₂.url = none → r₁.specs.Perm r₂.specs →
        requires_to_requires_dist r₁ = requires_to_requires_dist r₂) ∧
    requires_to_requires_dist ⟨none, [(">=", "1.0"), ("<", "2.0")]⟩ = " (<2.0,>=1.0)" ∧
    requires_to_requires_dist ⟨none, [("<", "2.0"), (">=", "1.0")]⟩ = " (<2.0,>=1.0)" := by
  refine ⟨?_, rfl, rfl⟩
  intro r₁ r₂ h1 h2 hperm
  simp [requires_to_requires_dist, h1, h2, specsPart_perm hperm]

/-- Claim C5 witness: the two permuted concrete inputs render equal. -/
theorem requires_to_requires_dist_perm_invariant_instance :
    requires_to_requires_dist ⟨none, [(">=", "1.0"), ("<", "2.0")]⟩ =
      requires_to_requires_dist ⟨none, [("<", "2.0"), (">=", "1.0")]⟩ :=
  requires_to_requires_dist_perm_invariant.1 _ _ rfl rfl (List.Perm.swap _ _ _)

/-- Claim C6: a requirement carrying a non-empty direct URL renders as the
at-sign form, independently of any version specifiers present. -/
theorem requires_to_requires_dist_url_wins (r : SpecsReq) (u : String)
    (hu : r.url = some u) (hne : u ≠ "") :
    requires_to_requires_dist r = " @ " ++ u := by
  simp [requires_to_requires_dist, hu, hne]

/-- Claim C6 witness: a URL requirement that also carries specifiers renders
with the URL only. -/
theorem requires_to_requires_dist_url_wins_instance :
    requires_to_requires_dist ⟨some "https://example.com/pkg.whl", [(">=", "1.0")]⟩ =
      " @ https://example.com/pkg.whl" :=
  requires_to_requires_dist_url_wins _ _ rfl (by decide)

/-- Claim C8: when a version file exists its stripped contents are the
resolved version and the file itself is the persisted artifact; without a
version file and with no environment-variable name, or with the named
variable unset, the fallback 99.99.99 is resolved and a fresh version-text
artifact is generated. -/
theorem prologVersion_resolution :
    (∀ (c : String) (k : Option String) (env : String → Option String),
        prologVersion (some c) k env = (pyStrip c, VersionArtifact.existingFile "VERSION.txt")) ∧
    (∀ env : String → Option String,
        prologVersion none none env =
          ("99.99.99", VersionArtifact.generated "VERSION.txt" "99.99.99")) ∧
    (∀ (k : String) (env : String → Option String), env k = none →
        prologVersion none (some k) env =
          ("99.99.99", VersionArtifact.generated "VERSION.txt" "99.99.99")) := by
  refine ⟨fun c k env => rfl, fun env => rfl, fun k env hk => ?_⟩
  simp [prologVersion, hk]

/-- Claim C8 witness: an unset environment variable resolves to the
fallback and generates the artifact. -/
theorem prologVersion_resolution_instance :
    prologVersion none (some "PKG_VERSION") (fun _ => none) =
      ("99.99.99", VersionArtifact.generated "VERSION.txt" "99.99.99") :=
  prologVersion_resolution.2.2 "PKG_VERSION" (fun _ => none) rfl

/-- Claim C10: at the public interface, a single string for expectFile
behaves as the one-element list, and none selects the documented defaults
for ignoreNames and expectFile, so the walk result is identical under these
argument spellings. -/
theorem recursiveGlobApi_normalization :
    (∀ (pat : String → Bool) (root : String) (d : FSDir) (ign : Option (List String))
        (s : String),
        recursiveGlobApi pat root d ign (some (PyStrOrList.str s)) =
          recursiveGlobApi pat root d ign (some (PyStrOrList.list [s]))) ∧
    (∀ (pat : String → Bool) (root : String) (d : FSDir),
        recursiveGlobApi pat root d none none =
          recursiveGlob pat root d ["__pycache__"] ["__init__.py"]) ∧
    (∀ (pat : String → Bool) (root : String) (d : FSDir) (exp : Option PyStrOrList),
        recursiveGlobApi pat root d none exp =
          recursiveGlobApi pat root d (some ["__pycache__"]) exp) ∧
    (∀ (pat : String → Bool) (root : String) (d : FSDir) (ign : Option (List String)),
        recursiveGlobApi pat root d ign none =
          recursiveGlobApi pat root d ign (some (PyStrOrList.list ["__init__.py"]))) :=
  ⟨fun _ _ _ _ _ => rfl, fun _ _ _ => rfl, fun _ _ _ _ => rfl, fun _ _ _ _ => rfl⟩

/-- Claim C1 (amended): every match produced by recursiveGlob is either a
root-level match or comes from a subdirectory whose base name is not in
ignoreNames, so a directory named in ignoreNames never contributes matches
from its own files; the walker nevertheless still descends into it and its
descendant directories are considered independently, see the
counterexample. -/
theorem recursiveGlob_matches_root_or_nonignored_child
    (pat : String → Bool) (root : String) (d : FSDir) (ign exp : List String) (x : String)
    (hx : x ∈ recursiveGlob pat root d ign exp) :
    x ∈ globDir pat root d ∨
      ∃ p n c, (p, n) ∈ osWalk root d ∧ c ∈ FSDir.subdirs n ∧ FSDir.name c ∉ ign ∧
        x ∈ globDir pat (p ++ "/" ++ FSDir.name c) c := by
  unfold recursiveGlob at hx
  rcases List.mem_append.mp hx with h | h
  · exact Or.inl h
  · right
    rw [List.mem_flatten] at h
    obtain ⟨l, hl, hxl⟩ := h
    rw [List.mem_map] at hl
    obtain ⟨e, he, rfl⟩ := hl
    rw [List.mem_flatten] at hxl
    obtain ⟨l2, hl2, hx2⟩ := hxl
    rw [List.mem_map] at hl2
    obtain ⟨c, hc, rfl⟩ := hl2
    obtain ⟨p, n⟩ := e
    unfold childMatches at hx2
    split at hx2
    · cases hx2
    · rename_i hnotin
      split at hx2
      · cases hx2
      · exact ⟨p, n, c, he, hc, hnotin, hx2⟩

/-- Claim C1 counterexample: with the default rules, the walker does descend
into the ignored directory __pycache__, whose grandchild directory sub
contributes matched files, so exclusion is not definitive for the subtree. -/
theorem recursiveGlob_ignored_subtree_contributes :
    recursiveGlob pyPat "pkg" pyTree ["__pycache__"] ["__init__.py"] =
      ["pkg/__init__.py", "pkg/a.py", "pkg/__pycache__/sub/__init__.py",
       "pkg/__pycache__/sub/b.py"] ∧
    "pkg/__pycache__/sub/b.py" ∈
      recursiveGlob pyPat "pkg" pyTree ["__pycache__"] ["__init__.py"] :=
  ⟨rfl, by decide⟩

/-- Claim C1 witness: the characterization applied to a concrete match in
the concrete tree. -/
theorem recursiveGlob_matches_root_or_nonignored_child_instance :
    "pkg/a.py" ∈ globDir pyPat "pkg" pyTree ∨
      ∃ p n c, (p, n) ∈ osWalk "pkg" pyTree ∧ c ∈ FSDir.subdirs n ∧
        FSDir.name c ∉ ["__pycache__"] ∧
        "pkg/a.py" ∈ globDir pyPat (p ++ "/" ++ FSDir.name c) c :=
  recursiveGlob_matches_root_or_nonignored_child pyPat "pkg" pyTree ["__pycache__"]
    ["__init__.py"] "pkg/a.py" (by decide)

/-- Claim C3: splitting a key of the form name colon condition recovers the
name and the condition; a non-empty extra name emits the Provides-Extra
record first and combines the parenthesized condition with the extra
clause; a pre-existing marker is wrapped in parentheses before the combined
clause is ANDed on; and the concrete key and requirement of the claim
produce exactly the claimed marker text. -/
theorem generate_requirements_named_extra_condition :
    (∀ n cond : String, (∀ c ∈ n.data, c ≠ ':') →
        splitExtra (n ++ ":" ++ cond) = (n, cond)) ∧
    (∀ (key n cond : String) (deps : List String) (reqs : List (String × String)),
        splitExtra key = (n, cond) → n ≠ "" → cond ≠ "" →
        processDeps ("(" ++ cond ++ ") and " ++ "extra == \x27" ++ n ++ "\x27") deps =
          Except.ok reqs →
        entryFields key deps = Except.ok (("Provides-Extra", n) :: reqs)) ∧
    (∀ (cond : String) (r : Requirement) (m : String), cond ≠ "" → r.marker = some m →
        combineMarker cond r = { r with marker := some ("(" ++ m ++ ") and " ++ cond) }) ∧
    generate_requirements [("test:sys_platform==\x27linux\x27", ["pytest>=6"])] =
      Except.ok [("Provides-Extra", "test"),
        ("Requires-Dist",
          "pytest>=6; (sys_platform==\x27linux\x27) and extra == \x27test\x27")] := by
  refine ⟨splitExtra_named, ?_, ?_, rfl⟩
  · intro key n cond deps reqs hsplit hn hc hok
    have h1 : (splitExtra key).1 = n := by rw [hsplit]
    have h2 : (splitExtra key).2 = cond := by rw [hsplit]
    simp [entryFields, h1, h2, hn, hc, hok]
  · intro cond r m hc hm
    simp [combineMarker, hc, hm]

/-- Claim C3 witness: the concrete key and requirement of the claim, pushed
through the per-entry body. -/
theorem generate_requirements_named_extra_condition_instance :
    entryFields "test:sys_platform==\x27linux\x27" ["pytest>=6"] =
      Except.ok [("Provides-Extra", "test"),
        ("Requires-Dist",
          "pytest>=6; (sys_platform==\x27linux\x27) and extra == \x27test\x27")] :=
  generate_requirements_named_extra_condition.2.1 "test:sys_platform==\x27linux\x27" "test"
    "sys_platform==\x27linux\x27" ["pytest>=6"] _ rfl (by decide) (by decide) rfl

/-- Claim C4: an unparsable requirement string anywhere in the mapping makes
the whole distillation fail: the result is an error and no output record
sequence is delivered. -/
theorem generate_requirements_fatal_on_bad_requirement :
    ∀ (m : List (String × List String)) (key d err : String) (deps : List String),
      (key, deps) ∈ m → d ∈ deps → Requirement.parse d = Except.error err →
      (∃ msg, generate_requirements m = Except.error msg) ∧
        ∀ l, generate_requirements m ≠ Except.ok l := by
  intro m
  induction m with
  | nil => intro key d err deps hmem; cases hmem
  | cons entry rest ih =>
    intro key d err deps hmem hd he
    obtain ⟨k0, ds0⟩ := entry
    have herr : ∃ msg, generate_requirements ((k0, ds0) :: rest) = Except.error msg := by
      rcases List.mem_cons.mp hmem with heq | hmem2
      · rw [Prod.mk.injEq] at heq
        obtain ⟨rfl, rfl⟩ := heq
        obtain ⟨msg, hm⟩ := entryFields_error_of_mem key deps d err hd he
        exact ⟨msg, by simp [generate_requirements, hm]⟩
      · cases hef : entryFields k0 ds0 with
        | error e => exact ⟨e, by simp [generate_requirements, hef]⟩
        | ok fs =>
          obtain ⟨msg, hm⟩ := (ih key d err deps hmem2 hd he).1
          exact ⟨msg, by simp [generate_requirements, hef, hm]⟩
    refine ⟨herr, ?_⟩
    intro l hl
    obtain ⟨msg, hm⟩ := herr
    rw [hm] at hl
    cases hl

/-- Claim C4 witness: a mapping containing an unparsable requirement string
distills to an error and never to an output list. -/
theorem generate_requirements_fatal_on_bad_requirement_instance :
    (∃ msg, generate_requirements [("", ["???"])] = Except.error msg) ∧
      ∀ l, generate_requirements [("", ["???"])] ≠ Except.ok l :=
  generate_requirements_fatal_on_bad_requirement [("", ["???"])] "" "???"
    "no name in requirement: ???" ["???"] (by decide) (by decide) rfl

/-- Claim C7: with non-empty expectFile, a non-ignored directory lacking
every expected file among its direct files contributes no matches of its
own, while its entry in the walk still exists so its subdirectories are
evaluated independently; an empty expectFile disables the requirement and
every non-ignored directory contributes its matches. -/
theorem recursiveGlob_expectFile_per_directory :
    (∀ (pat : String → Bool) (ign exp : List String) (p : String) (c : FSDir),
        exp ≠ [] → FSDir.name c ∉ ign → (∀ fn ∈ exp, fn ∉ FSDir.files c) →
        childMatches pat ign exp p c = []) ∧
    (∀ (root p : String) (d n c : FSDir), (p, n) ∈ osWalk root d → c ∈ FSDir.subdirs n →
        (p ++ "/" ++ FSDir.name c, c) ∈ osWalk root d) ∧
    (∀ (pat : String → Bool) (ign : List String) (p : String) (c : FSDir),
        FSDir.name c ∉ ign →
        childMatches pat ign [] p c = globDir pat (p ++ "/" ++ FSDir.name c) c) := by
  refine ⟨?_, osWalk_child_mem, ?_⟩
  · intro pat ign exp p c hne hnotin hnofiles
    have hfound : exp.any (fun fn => decide (fn ∈ FSDir.files c)) = false := by
      rw [List.any_eq_false]
      intro fn hfn
      simpa using hnofiles fn hfn
    cases exp with
    | nil => exact absurd rfl hne
    | cons e0 es => simp [childMatches, hnotin, hfound]
  · intro pat ign p c hnotin
    simp [childMatches, hnotin]

/-- Claim C7 witness: the per-directory rules applied to concrete
directories of the concrete tree. -/
theorem recursiveGlob_expectFile_per_directory_instance :
    childMatches pyPat ["__pycache__"] ["__init__.py"] "pkg"
        (FSDir.mk "docs" ["readme.txt"] []) = [] ∧
    ("pkg/__pycache__" ++ "/" ++ FSDir.name (FSDir.mk "sub" ["__init__.py", "b.py"] []),
        FSDir.mk "sub" ["__init__.py", "b.py"] []) ∈ osWalk "pkg" pyTree ∧
    childMatches pyPat ["__pycache__"] [] "pkg" (FSDir.mk "docs" ["readme.txt"] []) =
      globDir pyPat ("pkg" ++ "/" ++ FSDir.name (FSDir.mk "docs" ["readme.txt"] []))
        (FSDir.mk "docs" ["readme.txt"] []) :=
  ⟨recursiveGlob_expectFile_per_directory.1 pyPat _ _ "pkg" _ (by decide) (by decide)
      (by decide),
   recursiveGlob_expectFile_per_directory.2.1 "pkg" "pkg/__pycache__" pyTree
     (FSDir.mk "__pycache__" ["junk.pyc"] [FSDir.mk "sub" ["__init__.py", "b.py"] []])
     (FSDir.mk "sub" ["__init__.py", "b.py"] [])
     (List.Mem.tail _ (List.Mem.head _))
     (List.Mem.head _),
   recursiveGlob_expectFile_per_directory.2.2 pyPat _ "pkg" _ (by decide)⟩

/-- Claim C9: a key that is a colon followed by a condition emits no
Provides-Extra record and the bare condition, without parentheses and
without an extra clause, becomes the marker of every requirement of the
entry; a pre-existing marker would be wrapped in parentheses by the same
combination step; the per-requirement loop only ever emits Requires-Dist
records. -/
theorem generate_requirements_empty_extra_condition :
    (∀ cond : String, splitExtra (":" ++ cond) = ("", cond)) ∧
    (∀ (cond : String) (deps : List String),
        entryFields (":" ++ cond) deps = processDeps cond deps) ∧
    (∀ (cond : String) (r : Requirement), cond ≠ "" → r.marker = none →
        combineMarker cond r = { r with marker := some cond }) ∧
    (∀ (cond : String) (deps : List String) (l : List (String × String)),
        processDeps cond deps = Except.ok l → ∀ fld ∈ l, fld.1 = "Requires-Dist") ∧
    generate_requirements [(":sys_platform==\x27win32\x27", ["colorama"])] =
      Except.ok [("Requires-Dist", "colorama; sys_platform==\x27win32\x27")] := by
  refine ⟨splitExtra_empty_extra, ?_, ?_, processDeps_fields, rfl⟩
  · intro cond deps
    simp [entryFields, splitExtra_empty_extra cond]
  · intro cond r hc hm
    simp [combineMarker, hc, hm]

/-- Claim C9 witness: the bare condition becomes the marker of a concrete
requirement without a pre-existing marker. -/
theorem generate_requirements_empty_extra_condition_instance :
    combineMarker "sys_platform==\x27win32\x27"
        { name := "colorama", extras := [], specifier := [], url := none, marker := none } =
      { name := "colorama", extras := [], specifier := [], url := none,
        marker := some "sys_platform==\x27win32\x27" } :=
  generate_requirements_empty_extra_condition.2.2.1 "sys_platform==\x27win32\x27" _
    (by decide) rfl
